import Mathlib

/-!
Verification development for the OpsOrch Elasticsearch log adapter.

The Go source is shallowly embedded. Go `map[string]any` / `any` values are
modelled by the inductive `JVal` (a Go map becomes an association list;
since Go does not fix a map's iteration order, two association lists that
are permutations of one another represent the same map). Go slices become
`List`, `time.Time` is modelled by the two observations the adapter makes
of it (`IsZero` and its RFC3339 rendering), and fallible steps return
`Except` / `Option`.
-/

namespace ElasticAdapter

/-- Dynamic values: the model of Go `any` as produced by JSON decoding and
as consumed by `map[string]any` literals. Go numbers (ints and float64) are
carried as rationals; the adapter never computes with a number, it only
moves it around, so the carrier only has to preserve identity. -/
inductive JVal where
  | null : JVal
  | bool : Bool → JVal
  | num : ℚ → JVal
  | str : String → JVal
  | arr : List JVal → JVal
  | obj : List (String × JVal) → JVal

mutual

/-- Decidable equality for `JVal` (the nested `List` occurrences keep the
derive handler from producing it). -/
def JVal.decEq : (a b : JVal) → Decidable (a = b)
  | .null, .null => isTrue rfl
  | .null, .bool _ | .null, .num _ | .null, .str _ | .null, .arr _ | .null, .obj _ =>
      isFalse (fun h => JVal.noConfusion h)
  | .bool _, .null | .bool _, .num _ | .bool _, .str _ | .bool _, .arr _ | .bool _, .obj _ =>
      isFalse (fun h => JVal.noConfusion h)
  | .bool a, .bool b =>
      if h : a = b then isTrue (by rw [h]) else isFalse (fun he => h (JVal.bool.inj he))
  | .num _, .null | .num _, .bool _ | .num _, .str _ | .num _, .arr _ | .num _, .obj _ =>
      isFalse (fun h => JVal.noConfusion h)
  | .num a, .num b =>
      if h : a = b then isTrue (by rw [h]) else isFalse (fun he => h (JVal.num.inj he))
  | .str _, .null | .str _, .bool _ | .str _, .num _ | .str _, .arr _ | .str _, .obj _ =>
      isFalse (fun h => JVal.noConfusion h)
  | .str a, .str b =>
      if h : a = b then isTrue (by rw [h]) else isFalse (fun he => h (JVal.str.inj he))
  | .arr _, .null | .arr _, .bool _ | .arr _, .num _ | .arr _, .str _ | .arr _, .obj _ =>
      isFalse (fun h => JVal.noConfusion h)
  | .arr a, .arr b =>
      match JVal.decEqList a b with
      | isTrue h => isTrue (by rw [h])
      | isFalse h => isFalse (fun he => h (JVal.arr.inj he))
  | .obj _, .null | .obj _, .bool _ | .obj _, .num _ | .obj _, .str _ | .obj _, .arr _ =>
      isFalse (fun h => JVal.noConfusion h)
  | .obj a, .obj b =>
      match JVal.decEqKVList a b with
      | isTrue h => isTrue (by rw [h])
      | isFalse h => isFalse (fun he => h (JVal.obj.inj he))

/-- Decidable equality for lists of `JVal`. -/
def JVal.decEqList : (a b : List JVal) → Decidable (a = b)
  | [], [] => isTrue rfl
  | [], _ :: _ => isFalse (fun h => List.noConfusion h)
  | _ :: _, [] => isFalse (fun h => List.noConfusion h)
  | x :: xs, y :: ys =>
      match JVal.decEq x y with
      | isFalse h => isFalse (fun he => h (List.cons.inj he).1)
      | isTrue h1 =>
        match JVal.decEqList xs ys with
        | isTrue h2 => isTrue (by rw [h1, h2])
        | isFalse h => isFalse (fun he => h (List.cons.inj he).2)

/-- Decidable equality for key-value lists of `JVal`. -/
def JVal.decEqKVList : (a b : List (String × JVal)) → Decidable (a = b)
  | [], [] => isTrue rfl
  | [], _ :: _ => isFalse (fun h => List.noConfusion h)
  | _ :: _, [] => isFalse (fun h => List.noConfusion h)
  | (k1, v1) :: xs, (k2, v2) :: ys =>
      if hk : k1 = k2 then
        match JVal.decEq v1 v2 with
        | isFalse h => isFalse (fun he => h (Prod.mk.inj (List.cons.inj he).1).2)
        | isTrue h1 =>
          match JVal.decEqKVList xs ys with
          | isTrue h2 => isTrue (by rw [hk, h1, h2])
          | isFalse h => isFalse (fun he => h (List.cons.inj he).2)
      else
        isFalse (fun he => hk (Prod.mk.inj (List.cons.inj he).1).1)

end

instance : DecidableEq JVal := JVal.decEq

/-- Go map indexing `m[k]`; `none` models a missing key. (A well-formed Go
map has no duplicate keys, so `List.lookup` on any association-list
representation returns exactly the map entry.) -/
def mapGet (m : List (String × JVal)) (k : String) : Option JVal :=
  m.lookup k

/-- Go's `v, ok := m[k].(string)` pattern: the string value of key `k` when
the key is present with a string value, `none` otherwise (missing key or a
value of a different dynamic type). -/
def strGet (m : List (String × JVal)) (k : String) : Option String :=
  match m.lookup k with
  | some (.str s) => some s
  | _ => none

/-- Model of Go `time.Time` restricted to the two observations the adapter
makes of it: `IsZero()` and `Format(time.RFC3339)`. -/
structure GoTime where
  isZero : Bool
  rfc3339 : String
  deriving DecidableEq

/-- `schema.LogFilter` from opsorch-core: one structured filter. -/
structure LogFilter where
  field : String
  operator : String
  value : String
  deriving DecidableEq

/-- `schema.LogExpression` from opsorch-core. -/
structure LogExpression where
  search : String
  severityIn : List String
  filters : List LogFilter
  deriving DecidableEq

/-- `schema.QueryScope` from opsorch-core. -/
structure QueryScope where
  service : String
  environment : String
  team : String
  deriving DecidableEq

/-- `schema.LogQuery` from opsorch-core (the CanonicalQuery). `Expression`
is a nillable pointer, hence `Option`; `Metadata` is a Go map, modelled as
an association list whose order stands for the map's iteration order.
Go's `End` field is named `stop` here because `end` is a Lean keyword. -/
structure LogQuery where
  start : GoTime
  stop : GoTime
  expression : Option LogExpression
  scope : QueryScope
  metadata : List (String × JVal)
  limit : Int
  deriving DecidableEq

/-! ## Query builder (`buildQuery`, `buildFilterClause` in the source) -/

/-- The `@timestamp` bounds object of the range clause: `gte` from `Start`
when non-zero, then `lte` from `End` when non-zero, as `buildQuery` inserts
them. -/
def timeBounds (start stop : GoTime) : List (String × JVal) :=
  (if !start.isZero then [("gte", JVal.str start.rfc3339)] else []) ++
  (if !stop.isZero then [("lte", JVal.str stop.rfc3339)] else [])

/-- The time-range clause list: one `range` clause when `Start` or `End` is
non-zero, nothing otherwise (first conditional of `buildQuery`). -/
def rangeClauses (start stop : GoTime) : List JVal :=
  if !start.isZero || !stop.isZero then
    [JVal.obj [("range", JVal.obj [("@timestamp", JVal.obj (timeBounds start stop))])]]
  else []

/-- `buildFilterClause`: translates one `LogFilter` by operator; any
operator other than `=`, `!=`, `contains`, `regex` yields no clause
(the `default` arm of the Go switch returns nil). -/
def buildFilterClause (f : LogFilter) : Option JVal :=
  if f.operator = "=" then
    some (JVal.obj [("term", JVal.obj [(f.field, JVal.str f.value)])])
  else if f.operator = "!=" then
    some (JVal.obj [("bool", JVal.obj [("must_not",
      JVal.obj [("term", JVal.obj [(f.field, JVal.str f.value)])])])])
  else if f.operator = "contains" then
    some (JVal.obj [("wildcard", JVal.obj [(f.field,
      JVal.obj [("value", JVal.str ("*" ++ f.value ++ "*"))])])])
  else if f.operator = "regex" then
    some (JVal.obj [("regexp", JVal.obj [(f.field,
      JVal.obj [("value", JVal.str f.value)])])])
  else
    none

/-- The clauses contributed by the optional expression block of
`buildQuery`: free-text `query_string` when `Search` is non-empty, then the
`terms` severity clause when `SeverityIn` is non-empty, then one clause per
structured filter in input order (nil clauses skipped). -/
def expressionClauses : Option LogExpression → List JVal
  | none => []
  | some e =>
    (if e.search ≠ "" then
      [JVal.obj [("query_string", JVal.obj [("query", JVal.str e.search)])]]
     else []) ++
    (if e.severityIn.length > 0 then
      [JVal.obj [("terms", JVal.obj [("severity", JVal.arr (e.severityIn.map JVal.str))])]]
     else []) ++
    e.filters.filterMap buildFilterClause

/-- The scope clauses of `buildQuery`: one `term` clause per non-empty
`Service`, `Environment`, `Team`, in that order. -/
def scopeClauses (s : QueryScope) : List JVal :=
  (if s.service ≠ "" then
    [JVal.obj [("term", JVal.obj [("service", JVal.str s.service)])]] else []) ++
  (if s.environment ≠ "" then
    [JVal.obj [("term", JVal.obj [("environment", JVal.str s.environment)])]] else []) ++
  (if s.team ≠ "" then
    [JVal.obj [("term", JVal.obj [("team", JVal.str s.team)])]] else [])

/-- The metadata clauses of `buildQuery`: one `term` clause per metadata
entry, in the iteration order of the map. -/
def metadataClauses (md : List (String × JVal)) : List JVal :=
  md.map (fun kv => JVal.obj [("term", JVal.obj [(kv.1, kv.2)])])

/-- The full `must` clause list of `buildQuery`, in the order the Go code
appends: time range, expression (search, severity, filters), scope
(service, environment, team), metadata. -/
def mustClauses (q : LogQuery) : List JVal :=
  rangeClauses q.start q.stop ++ expressionClauses q.expression ++
    scopeClauses q.scope ++ metadataClauses q.metadata

/-- `buildQuery`: the complete Elasticsearch query document. The top level
is a Go map; the association list records it in insertion order
(`query`, `sort`, `size`). -/
def buildQuery (q : LogQuery) : List (String × JVal) :=
  [("query", JVal.obj [("bool", JVal.obj [("must", JVal.arr (mustClauses q))])]),
   ("sort", JVal.arr [JVal.obj [("@timestamp", JVal.obj [("order", JVal.str "desc")])]]),
   ("size", JVal.num (if q.limit > 0 then (q.limit : ℚ) else 1000))]

/-! ## Config parsing and provider construction (`parseConfig`, `New`) -/

/-- `Config` from the source: typed configuration. -/
structure Config where
  addresses : List String
  username : String
  password : String
  apiKey : String
  cloudID : String
  indexPattern : String
  deriving DecidableEq

/-- The addresses extraction of `parseConfig`: the `addresses` key asserted
to `[]any`, keeping only string entries; a missing key or a value of
another type yields the empty list. -/
def parseAddresses (cfg : List (String × JVal)) : List String :=
  match mapGet cfg "addresses" with
  | some (.arr xs) => xs.filterMap (fun v => match v with
      | .str s => some s
      | _ => none)
  | _ => []

/-- `parseConfig`: extracts the typed `Config` from the untyped map.
`indexPattern` defaults to `logs-*` when absent, non-string, or empty. -/
def parseConfig (cfg : List (String × JVal)) : Config :=
  { addresses := parseAddresses cfg
    username := (strGet cfg "username").getD ""
    password := (strGet cfg "password").getD ""
    apiKey := (strGet cfg "apiKey").getD ""
    cloudID := (strGet cfg "cloudID").getD ""
    indexPattern := match strGet cfg "indexPattern" with
      | some v => if v ≠ "" then v else "logs-*"
      | none => "logs-*" }

/-- The `elasticsearch.Config` value that `New` assembles for the client
library. -/
structure ESConfig where
  addresses : List String
  cloudID : String
  username : String
  password : String
  apiKey : String
  deriving DecidableEq

/-- The client-config assembly inside `New`: `CloudID` takes precedence
over `Addresses`; `APIKey` takes precedence over `Username`/`Password`. -/
def buildESConfig (parsed : Config) : ESConfig :=
  let base : ESConfig :=
    { addresses := [], cloudID := "", username := "", password := "", apiKey := "" }
  let withConn :=
    if parsed.cloudID ≠ "" then { base with cloudID := parsed.cloudID }
    else { base with addresses := parsed.addresses }
  if parsed.apiKey ≠ "" then { withConn with apiKey := parsed.apiKey }
  else if parsed.username ≠ "" ∨ parsed.password ≠ "" then
    { withConn with username := parsed.username, password := parsed.password }
  else withConn

/-- The validation error message of `New` (the source text puts the two
field names inside single quotes; the quotes are elided here). -/
def newErrMsg : String := "either addresses or cloudID must be provided"

/-- `New` up to the boundary with the external client library: it parses
the config, rejects it when both the parsed addresses and the parsed
cloudID are empty, and otherwise assembles the client configuration. The
subsequent `elasticsearch.NewClient` call and the liveness `Ping` are
external I/O (out of scope per the spec); an `.ok` result here means
construction proceeds to those steps. -/
def New (cfg : List (String × JVal)) : Except String ESConfig :=
  if (parseConfig cfg).addresses = [] ∧ (parseConfig cfg).cloudID = "" then
    .error newErrMsg
  else
    .ok (buildESConfig (parseConfig cfg))

/-! ## Result normalization (`normalizeHit`) -/

/-- `esHit` from the source: one backend hit. `_score` is a float64 carried
through unmodified, so a rational carrier is faithful. `_source` is the
decoded JSON document, a Go map. -/
structure EsHit where
  index : String
  id : String
  score : ℚ
  source : List (String × JVal)
  deriving DecidableEq

/-- `schema.LogEntry` from opsorch-core (the CanonicalLogEntry).
`timestampRaw` holds the string value of the `@timestamp` field when
present; the RFC3339 parse into `time.Time` (which only affects the
timestamp attribute, untouched by every claim here) is abstracted as the
identity on that string. -/
structure LogEntry where
  timestampRaw : Option String
  message : String
  severity : String
  service : String
  labels : List (String × String)
  fields : List (String × JVal)
  metadata : List (String × JVal)
  deriving DecidableEq

/-- The promoted-field test of `normalizeHit`, mirroring the Go condition
`key == "@timestamp" || key == "message" || key == "severity" ||
key == "level" || key == "service"`. -/
def isPromoted (k : String) : Bool :=
  k == "@timestamp" || k == "message" || k == "severity" || k == "level" || k == "service"

/-- The five field names the label/field loops of `normalizeHit` skip. -/
def promotedFields : List String :=
  ["@timestamp", "message", "severity", "level", "service"]

/-- `normalizeHit`: converts one backend hit to a canonical log entry. -/
def normalizeHit (hit : EsHit) : LogEntry :=
  { timestampRaw := strGet hit.source "@timestamp"
    message := (strGet hit.source "message").getD ""
    severity := match strGet hit.source "severity" with
      | some s => s
      | none => (strGet hit.source "level").getD ""
    service := (strGet hit.source "service").getD ""
    labels := hit.source.filterMap (fun kv =>
      if isPromoted kv.1 then none
      else match kv.2 with
        | .str s => some (kv.1, s)
        | _ => none)
    fields := hit.source.filter (fun kv => !isPromoted kv.1)
    metadata := [("_index", JVal.str hit.index), ("_id", JVal.str hit.id),
      ("_score", JVal.num hit.score)] }

/-! ## Transport loop (`cmd/logplugin/main.go`) -/

/-- `rpcRequest`: one decoded request record. The raw `payload` stays a
dynamic value until dispatch unmarshals it. -/
structure RpcRequest where
  method : String
  config : List (String × JVal)
  payload : JVal
  deriving DecidableEq

/-- `rpcResponse`: exactly one of `result` or `error` is set. -/
inductive RpcResponse where
  | result : JVal → RpcResponse
  | error : String → RpcResponse
  deriving DecidableEq

/-- One outcome of `dec.Decode` on the input stream: a well-formed request,
end-of-stream, or any other decode failure. -/
inductive DecodeResult where
  | ok : RpcRequest → DecodeResult
  | eof : DecodeResult
  | fail : String → DecodeResult

/-- The external collaborators of the transport loop, as oracles over an
abstract provider type `P`: `construct` models `adapter.New` (config
validation plus client creation and liveness probe), `unmarshal` models
`json.Unmarshal` of the payload into a `LogQuery`, and `runQuery` models
`prov.Query` (the backend round trip, its result already encoded). The
transport theorems hold for every choice of these functions. -/
structure Oracles (P : Type) where
  construct : List (String × JVal) → Except String P
  unmarshal : JVal → Except String LogQuery
  runQuery : P → LogQuery → Except String JVal

/-- `ensureProvider`: returns the memoized provider when one exists
(ignoring the config of the current request), otherwise attempts
construction with the given config, memoizing on success and leaving the
memo unset on failure. The second component is the memo after the call. -/
def ensureProvider {P : Type} (O : Oracles P) (st : Option P)
    (cfg : List (String × JVal)) : Except String (P × Option P) :=
  match st with
  | some p => .ok (p, some p)
  | none =>
    match O.construct cfg with
    | .error e => .error e
    | .ok p => .ok (p, some p)

/-- The body of the transport loop for one well-formed request: consult the
provider first (constructing it if needed), then dispatch on the method
name; every path writes exactly one response. Returns the response and the
provider memo after the request. -/
def handleRequest {P : Type} (O : Oracles P) (st : Option P) (req : RpcRequest) :
    RpcResponse × Option P :=
  match ensureProvider O st req.config with
  | .error e => (.error e, st)
  | .ok (p, st2) =>
    if req.method = "log.query" then
      match O.unmarshal req.payload with
      | .error e => (.error e, st2)
      | .ok q =>
        match O.runQuery p q with
        | .error e => (.error e, st2)
        | .ok v => (.result v, st2)
    else
      (.error ("unknown method: " ++ req.method), st2)

/-- The transport loop of `main`: reads decode outcomes in order, returns
the sequence of response records written. End-of-stream returns without
writing; any other decode failure writes one error response and returns;
a well-formed request writes exactly one response and continues with the
updated provider memo. -/
def runLoop {P : Type} (O : Oracles P) : Option P → List DecodeResult → List RpcResponse
  | _, [] => []
  | _, .eof :: _ => []
  | _, .fail m :: _ => [.error m]
  | st, .ok req :: rest =>
    (handleRequest O st req).1 :: runLoop O (handleRequest O st req).2 rest

end ElasticAdapter

namespace ElasticAdapter

/-! ## Specification-side clause enumeration (spec 4.2, for the refinement
claim about clause ordering) -/

/-- Item 1 of spec 4.2, written from the spec text: the time-range clause,
present when start or end is non-zero, with inclusive gte from start and
inclusive lte from end, each independently optional. -/
def specTimeClause (q : LogQuery) : List JVal :=
  if q.start.isZero = true ∧ q.stop.isZero = true then []
  else
    [JVal.obj [("range", JVal.obj [("@timestamp", JVal.obj (
      (if q.start.isZero then [] else [("gte", JVal.str q.start.rfc3339)]) ++
      (if q.stop.isZero then [] else [("lte", JVal.str q.stop.rfc3339)])))])]]

/-- Item 2 of spec 4.2: the free-text clause, when the expression is set
and its search text is non-empty. -/
def specSearchClause (q : LogQuery) : List JVal :=
  match q.expression with
  | some e =>
    if e.search = "" then []
    else [JVal.obj [("query_string", JVal.obj [("query", JVal.str e.search)])]]
  | none => []

/-- Item 3 of spec 4.2: the severity set-membership clause, when the
expression is set and severityIn is non-empty. -/
def specSeverityClause (q : LogQuery) : List JVal :=
  match q.expression with
  | some e =>
    if e.severityIn = [] then []
    else [JVal.obj [("terms", JVal.obj [("severity", JVal.arr (e.severityIn.map JVal.str))])]]
  | none => []

/-- Item 4 of spec 4.2: one clause per structured filter, in input order,
translated by operator. -/
def specFilterClauses (q : LogQuery) : List JVal :=
  match q.expression with
  | some e => e.filters.filterMap buildFilterClause
  | none => []

/-- One exact-match scope clause for a non-empty scope value. -/
def scopeTerm (fieldName val : String) : List JVal :=
  if val = "" then [] else [JVal.obj [("term", JVal.obj [(fieldName, JVal.str val)])]]

/-- Item 5 of spec 4.2: scope clauses for non-empty service, environment,
team, in that order. -/
def specScopeClauses (q : LogQuery) : List JVal :=
  scopeTerm "service" q.scope.service ++ scopeTerm "environment" q.scope.environment ++
    scopeTerm "team" q.scope.team

/-- Item 6 of spec 4.2: one exact-match clause per metadata entry. -/
def specMetadataClauses (q : LogQuery) : List JVal :=
  q.metadata.map (fun kv => JVal.obj [("term", JVal.obj [(kv.1, kv.2)])])

/-- The conjunctive clause list in the fixed order the specification
enumerates: time range, free text, severity, structured filters, scope,
metadata. -/
def specClauses (q : LogQuery) : List JVal :=
  specTimeClause q ++ specSearchClause q ++ specSeverityClause q ++ specFilterClauses q ++
    specScopeClauses q ++ specMetadataClauses q

/-- Two `LogQuery` values denote the same Go value exactly when all plain
fields agree and the metadata association lists are permutations of one
another: a Go map fixes its contents but not an iteration order. -/
def SameGoQuery (q1 q2 : LogQuery) : Prop :=
  q1.start = q2.start ∧ q1.stop = q2.stop ∧ q1.expression = q2.expression ∧
    q1.scope = q2.scope ∧ q1.limit = q2.limit ∧ q1.metadata.Perm q2.metadata

/-! ## Concrete inputs used by witnesses and counterexamples -/

/-- An otherwise-empty query used to host the unknown-operator witness. -/
def c3q : LogQuery :=
  { start := ⟨true, ""⟩
    stop := ⟨true, ""⟩
    expression := none
    scope := ⟨"", "", ""⟩
    metadata := []
    limit := 0 }

/-- Expression for the unknown-operator witness. -/
def c3e : LogExpression := { search := "boom", severityIn := [], filters := [] }

/-- A filter with an operator outside the four recognized ones. -/
def c3f : LogFilter := { field := "status", operator := ">", value := "500" }

/-- A hit carrying `level` but no `severity`. -/
def c4hit : EsHit := ⟨"idx", "d4", 0, [("level", .str "warn"), ("message", .str "m")]⟩

/-- A hit carrying both `severity` and `level`. -/
def c4hitBoth : EsHit := ⟨"idx", "d5", 0, [("severity", .str "error"), ("level", .str "warn")]⟩

/-- A hit with a string field, a non-string field, and a promoted field. -/
def c5hit : EsHit :=
  ⟨"idx", "d1", 0, [("app", .str "web"), ("count", .num 3), ("level", .str "warn")]⟩

/-- A hit whose only source key is `level`. -/
def c6hit : EsHit := ⟨"idx", "d2", 0, [("level", JVal.str "warn")]⟩

/-- A hit with a non-string field for the amended completeness witness. -/
def c6hitW : EsHit := ⟨"idx", "d3", 0, [("count", JVal.num 3), ("msg", JVal.str "x")]⟩

/-- An otherwise-empty query with limit 3. -/
def c7q : LogQuery :=
  { start := ⟨true, ""⟩
    stop := ⟨true, ""⟩
    expression := none
    scope := ⟨"", "", ""⟩
    metadata := []
    limit := 3 }

/-- A query whose metadata map has two entries, listed in one iteration
order. -/
def c9qA : LogQuery :=
  { start := ⟨true, ""⟩
    stop := ⟨true, ""⟩
    expression := none
    scope := ⟨"", "", ""⟩
    metadata := [("a", JVal.str "1"), ("b", JVal.str "2")]
    limit := 0 }

/-- The same query with the other iteration order of the same metadata
map. -/
def c9qB : LogQuery :=
  { c9qA with metadata := [("b", JVal.str "2"), ("a", JVal.str "1")] }

/-- Oracles whose construction always fails, for the memoization witness. -/
def c10oracle : Oracles Unit :=
  { construct := fun _ => .error "connect failed"
    unmarshal := fun _ => .error "bad payload"
    runQuery := fun _ _ => .ok .null }

/-- Oracles whose construction always succeeds. -/
def c10okOracle : Oracles Unit :=
  { construct := fun _ => .ok ()
    unmarshal := fun _ => .error "bad payload"
    runQuery := fun _ _ => .ok .null }

/-- A request with an unknown method name. -/
def c10req : RpcRequest :=
  { method := "log.stream", config := [("addresses", JVal.null)], payload := JVal.null }

/-! ## Helper lemmas -/

/-- The code-side time-range clause equals the spec-side one. -/
theorem rangeClauses_eq_spec (q : LogQuery) :
    rangeClauses q.start q.stop = specTimeClause q := by
  unfold rangeClauses specTimeClause timeBounds
  cases hs : q.start.isZero <;> cases he : q.stop.isZero <;> simp [hs, he]

/-- The code-side expression block equals the spec-side items 2, 3, 4 in
order. -/
theorem expressionClauses_eq_spec (q : LogQuery) :
    expressionClauses q.expression =
      specSearchClause q ++ specSeverityClause q ++ specFilterClauses q := by
  unfold expressionClauses specSearchClause specSeverityClause specFilterClauses
  cases q.expression with
  | none => rfl
  | some e =>
    by_cases h1 : e.search = "" <;> cases h2 : e.severityIn <;> simp [h1, h2]

/-- The code-side scope clauses equal the spec-side item 5. -/
theorem scopeClauses_eq_spec (q : LogQuery) : scopeClauses q.scope = specScopeClauses q := by
  unfold scopeClauses specScopeClauses scopeTerm
  by_cases h1 : q.scope.service = "" <;> by_cases h2 : q.scope.environment = "" <;>
    by_cases h3 : q.scope.team = "" <;> simp [h1, h2, h3]

/-- The `must` list built by the code equals the spec enumeration. -/
theorem mustClauses_eq_spec (q : LogQuery) : mustClauses q = specClauses q := by
  unfold mustClauses specClauses
  rw [rangeClauses_eq_spec, expressionClauses_eq_spec, scopeClauses_eq_spec]
  simp [List.append_assoc, metadataClauses, specMetadataClauses]

/-- A string listed inside the `addresses` array survives into the parsed
addresses. -/
theorem mem_parseAddresses (cfg : List (String × JVal)) (xs : List JVal) (s : String)
    (h1 : mapGet cfg "addresses" = some (.arr xs)) (h2 : JVal.str s ∈ xs) :
    s ∈ parseAddresses cfg := by
  unfold parseAddresses
  rw [h1]
  exact List.mem_filterMap.mpr ⟨.str s, h2, rfl⟩

/-- An operator outside the four recognized ones yields no clause. -/
theorem buildFilterClause_unknown (f : LogFilter)
    (h : f.operator ∉ (["=", "!=", "contains", "regex"] : List String)) :
    buildFilterClause f = none := by
  simp only [List.mem_cons, List.mem_singleton, not_or] at h
  obtain ⟨h1, h2, h3, h4⟩ := h
  simp [buildFilterClause, h1, h2, h3, h4]

/-- The Boolean promoted-key test agrees with membership in the promoted
name list. -/
theorem isPromoted_false_iff (k : String) :
    isPromoted k = false ↔ k ∉ promotedFields := by
  simp [isPromoted, promotedFields, not_or, and_assoc]

/-- Membership in the labels of a normalized entry, characterized against
the source document. -/
theorem labels_mem (hit : EsHit) (k v : String) :
    (k, v) ∈ (normalizeHit hit).labels ↔
      ((k, JVal.str v) ∈ hit.source ∧ isPromoted k = false) := by
  simp only [normalizeHit, List.mem_filterMap]
  constructor
  · rintro ⟨⟨k2, v2⟩, hmem, hf⟩
    by_cases hp : isPromoted k2
    · simp [hp] at hf
    · simp only [Bool.not_eq_true] at hp
      match v2 with
      | .str s =>
        rw [if_neg (by simp [hp])] at hf
        simp only [Option.some.injEq, Prod.mk.injEq] at hf
        obtain ⟨hk, hv⟩ := hf
        subst hk
        subst hv
        exact ⟨hmem, hp⟩
      | .null => simp [hp] at hf
      | .bool b => simp [hp] at hf
      | .num n => simp [hp] at hf
      | .arr a => simp [hp] at hf
      | .obj o => simp [hp] at hf
  · rintro ⟨hmem, hp⟩
    exact ⟨(k, JVal.str v), hmem, by simp [hp]⟩

/-- Membership in the fields of a normalized entry, characterized against
the source document. -/
theorem fields_mem (hit : EsHit) (k : String) (w : JVal) :
    (k, w) ∈ (normalizeHit hit).fields ↔
      ((k, w) ∈ hit.source ∧ isPromoted k = false) := by
  simp [normalizeHit, List.mem_filter]

/-! ## Claim theorems -/

/-- Claim C1: for every CanonicalQuery, `buildQuery` places all clauses
under a single bool/must in the fixed order the spec enumerates — time
range (inclusive gte from start, inclusive lte from end, each optional),
then the query_string clause, then the severity terms clause, then one
clause per structured filter in input order, then scope clauses for
non-empty service, environment, team in that order, then one term clause
per metadata entry — and the sort specification orders results descending
by @timestamp. -/
theorem buildQuery_clause_order (q : LogQuery) :
    mapGet (buildQuery q) "query" =
      some (JVal.obj [("bool", JVal.obj [("must", JVal.arr (specClauses q))])]) ∧
    mapGet (buildQuery q) "sort" =
      some (JVal.arr [JVal.obj [("@timestamp", JVal.obj [("order", JVal.str "desc")])]]) := by
  refine ⟨?_, rfl⟩
  rw [← mustClauses_eq_spec]
  rfl

/-- Claim C2: `New` fails (with the configuration error) exactly when both
the parsed addresses and the parsed cloudID are empty; a config carrying at
least one string-valued address is never rejected at validation and
proceeds to client construction, and no other field combination is
rejected. -/
theorem new_validation (cfg : List (String × JVal)) :
    ((∃ e, New cfg = .error e) ↔
      ((parseConfig cfg).addresses = [] ∧ (parseConfig cfg).cloudID = "")) ∧
    (∀ xs s, mapGet cfg "addresses" = some (.arr xs) → JVal.str s ∈ xs →
      New cfg = .ok (buildESConfig (parseConfig cfg))) := by
  constructor
  · by_cases h : (parseConfig cfg).addresses = [] ∧ (parseConfig cfg).cloudID = ""
    · exact ⟨fun _ => h, fun _ => ⟨newErrMsg, by simp [New, h]⟩⟩
    · constructor
      · rintro ⟨e, he⟩
        simp [New, h] at he
      · intro hc
        exact absurd hc h
  · intro xs s h1 h2
    have hs : s ∈ parseAddresses cfg := mem_parseAddresses cfg xs s h1 h2
    have hne : ¬((parseConfig cfg).addresses = [] ∧ (parseConfig cfg).cloudID = "") := by
      rintro ⟨h0, -⟩
      rw [show (parseConfig cfg).addresses = parseAddresses cfg from rfl] at h0
      rw [h0] at hs
      exact List.not_mem_nil s hs
    simp [New, hne]

/-- Witness for C2: one string-valued address makes construction proceed. -/
theorem new_validation_witness :
    New [("addresses", JVal.arr [JVal.str "http://localhost:9200"])] =
      .ok (buildESConfig (parseConfig
        [("addresses", JVal.arr [JVal.str "http://localhost:9200"])])) :=
  (new_validation _).2 [JVal.str "http://localhost:9200"] "http://localhost:9200"
    rfl (by decide)

/-- Claim C3: a filter whose operator is not one of =, !=, contains, regex
yields no clause, and the built query with that filter inserted anywhere in
the filter list is identical to the built query without it; in particular
the clause counts are equal. -/
theorem unknown_operator_no_clause (q : LogQuery) (e : LogExpression)
    (pre post : List LogFilter) (f : LogFilter)
    (h : f.operator ∉ (["=", "!=", "contains", "regex"] : List String)) :
    buildFilterClause f = none ∧
    buildQuery { q with expression := some { e with filters := pre ++ f :: post } } =
      buildQuery { q with expression := some { e with filters := pre ++ post } } ∧
    (mustClauses { q with expression := some { e with filters := pre ++ f :: post } }).length =
      (mustClauses { q with expression := some { e with filters := pre ++ post } }).length := by
  have hnone := buildFilterClause_unknown f h
  have hfm : (pre ++ f :: post).filterMap buildFilterClause =
      (pre ++ post).filterMap buildFilterClause := by
    simp [List.filterMap_append, List.filterMap_cons, hnone]
  have hb : buildQuery { q with expression := some { e with filters := pre ++ f :: post } } =
      buildQuery { q with expression := some { e with filters := pre ++ post } } := by
    simp [buildQuery, mustClauses, expressionClauses, hfm]
  refine ⟨hnone, hb, ?_⟩
  simp [mustClauses, expressionClauses, hfm]

/-- Witness for C3 at the operator `>`. -/
theorem unknown_operator_no_clause_witness :
    buildFilterClause c3f = none ∧
    buildQuery { c3q with expression := some { c3e with filters := [] ++ c3f :: [] } } =
      buildQuery { c3q with expression := some { c3e with filters := [] ++ [] } } ∧
    (mustClauses { c3q with expression := some { c3e with filters := [] ++ c3f :: [] } }).length =
      (mustClauses { c3q with expression := some { c3e with filters := [] ++ [] } }).length :=
  unknown_operator_no_clause c3q c3e [] [] c3f (by decide)

/-- Claim C4: the normalized severity is the string value of the severity
field when present with a string value, else the string value of the level
field when present, else empty. -/
theorem severity_fallback (hit : EsHit) (s : String) :
    (strGet hit.source "severity" = some s → (normalizeHit hit).severity = s) ∧
    (strGet hit.source "severity" = none → strGet hit.source "level" = some s →
      (normalizeHit hit).severity = s) ∧
    (strGet hit.source "severity" = none → strGet hit.source "level" = none →
      (normalizeHit hit).severity = "") := by
  refine ⟨?_, ?_, ?_⟩
  · intro h
    simp [normalizeHit, h]
  · intro h1 h2
    simp [normalizeHit, h1, h2]
  · intro h1 h2
    simp [normalizeHit, h1, h2]

/-- Witness for C4: level-only gives warn; with both fields severity
wins. -/
theorem severity_fallback_witness :
    (normalizeHit c4hit).severity = "warn" ∧ (normalizeHit c4hitBoth).severity = "error" :=
  ⟨(severity_fallback c4hit "warn").2.1 (by decide) (by decide),
   (severity_fallback c4hitBoth "error").1 (by decide)⟩

/-- Claim C5: every key in labels exists in fields with an identical string
value; labels contains exactly the string-valued non-promoted source keys;
and neither labels nor fields contains any of the promoted names
@timestamp, message, severity, level, service. -/
theorem field_partition (hit : EsHit) :
    (∀ k v, (k, v) ∈ (normalizeHit hit).labels → (k, JVal.str v) ∈ (normalizeHit hit).fields) ∧
    (∀ k v, (k, v) ∈ (normalizeHit hit).labels ↔
      ((k, JVal.str v) ∈ hit.source ∧ k ∉ promotedFields)) ∧
    (∀ k, k ∈ promotedFields →
      (∀ v, (k, v) ∉ (normalizeHit hit).labels) ∧ (∀ w, (k, w) ∉ (normalizeHit hit).fields)) := by
  refine ⟨?_, ?_, ?_⟩
  · intro k v h
    rw [labels_mem] at h
    rw [fields_mem]
    exact h
  · intro k v
    rw [labels_mem, isPromoted_false_iff]
  · intro k hk
    constructor
    · intro v hv
      rw [labels_mem, isPromoted_false_iff] at hv
      exact hv.2 hk
    · intro w hw
      rw [fields_mem, isPromoted_false_iff] at hw
      exact hw.2 hk

/-- Witness for C5 on a concrete hit. -/
theorem field_partition_witness :
    ("app", JVal.str "web") ∈ (normalizeHit c5hit).fields ∧
    ("level", "warn") ∉ (normalizeHit c5hit).labels :=
  ⟨(field_partition c5hit).1 "app" "web" (by decide),
   ((field_partition c5hit).2.2 "level" (by decide)).1 "warn"⟩

/-- Counterexample to C6 as stated: the code drops five names from fields,
not four — the key `level` is not among the four names the claim lists, yet
a source entry `level = "warn"` does not appear in the normalized fields. -/
theorem fields_drop_level_counterexample :
    ("level", JVal.str "warn") ∈ c6hit.source ∧
    "level" ∉ (["@timestamp", "message", "severity", "service"] : List String) ∧
    ("level", JVal.str "warn") ∉ (normalizeHit c6hit).fields := by
  refine ⟨by decide, by decide, by decide⟩

/-- Claim C6 (amended): no key of the source document is dropped from the
normalized fields except the five promoted names @timestamp, message,
severity, level, service; every other source key, including non-string
valued ones, appears in fields with its original value. -/
theorem fields_complete (hit : EsHit) (k : String) (v : JVal)
    (hmem : (k, v) ∈ hit.source) (hk : k ∉ promotedFields) :
    (k, v) ∈ (normalizeHit hit).fields := by
  rw [fields_mem]
  exact ⟨hmem, (isPromoted_false_iff k).mpr hk⟩

/-- Witness for the amended C6: a non-string value survives into fields. -/
theorem fields_complete_witness :
    ("count", JVal.num 3) ∈ (normalizeHit c6hitW).fields :=
  fields_complete c6hitW "count" (JVal.num 3) (by decide) (by decide)

/-- Claim C7: the size field of the built query equals the limit when
positive and the fixed default 1000 when the limit is zero or negative. -/
theorem size_limit (q : LogQuery) :
    (0 < q.limit → mapGet (buildQuery q) "size" = some (JVal.num (q.limit : ℚ))) ∧
    (q.limit ≤ 0 → mapGet (buildQuery q) "size" = some (JVal.num 1000)) := by
  have hbase : mapGet (buildQuery q) "size" =
      some (JVal.num (if q.limit > 0 then (q.limit : ℚ) else 1000)) := rfl
  constructor
  · intro h
    rw [hbase, if_pos h]
  · intro h
    rw [hbase, if_neg (not_lt.mpr h)]

/-- Witness for C7: a query with limit 3 requests size 3. -/
theorem size_limit_witness : mapGet (buildQuery c7q) "size" = some (JVal.num 3) := by
  have h := (size_limit c7q).1 (by decide)
  simpa [c7q] using h

/-- Claim C8: the transport loop terminates cleanly on end-of-stream
without writing any response, writes exactly one error response and
terminates on any other decode failure, and writes exactly one response per
well-formed request before reading the next. -/
theorem transport_loop_step {P : Type} (O : Oracles P) (st : Option P)
    (rest : List DecodeResult) (m : String) (req : RpcRequest) :
    runLoop O st (.eof :: rest) = [] ∧
    runLoop O st (.fail m :: rest) = [.error m] ∧
    runLoop O st (.ok req :: rest) =
      (handleRequest O st req).1 :: runLoop O (handleRequest O st req).2 rest :=
  ⟨rfl, rfl, rfl⟩

/-- Counterexample to C9 as stated: a metadata map with two entries admits
two iteration orders of the same input, and `buildQuery` produces two
different documents for them, so clause ordering is not stable across
calls. -/
theorem buildQuery_metadata_order_counterexample :
    SameGoQuery c9qA c9qB ∧ buildQuery c9qA ≠ buildQuery c9qB := by
  constructor
  · exact ⟨rfl, rfl, rfl, rfl, rfl, by decide⟩
  · decide

/-- Claim C9 (amended): `buildQuery` is deterministic up to the order of
the metadata term clauses: two invocations on the same input produce
documents whose must-clause lists are permutations of one another and whose
sort and size fields coincide, and when the metadata map has at most one
entry the two documents are identical. -/
theorem buildQuery_deterministic_up_to_metadata (q1 q2 : LogQuery)
    (h : SameGoQuery q1 q2) :
    (mustClauses q1).Perm (mustClauses q2) ∧
    mapGet (buildQuery q1) "sort" = mapGet (buildQuery q2) "sort" ∧
    mapGet (buildQuery q1) "size" = mapGet (buildQuery q2) "size" ∧
    (q1.metadata.length ≤ 1 → buildQuery q1 = buildQuery q2) := by
  obtain ⟨h1, h2, h3, h4, h5, h6⟩ := h
  have hmd : q1.metadata.length ≤ 1 → q1.metadata = q2.metadata := by
    intro hlen
    match hq : q1.metadata, hlen with
    | [], _ =>
      rw [hq] at h6
      exact (List.perm_nil.mp h6.symm).symm
    | [a], _ =>
      rw [hq] at h6
      exact List.singleton_perm.mp h6
  refine ⟨?_, rfl, ?_, ?_⟩
  · unfold mustClauses
    rw [h1, h2, h3, h4]
    exact (h6.map _).append_left _
  · have e1 : mapGet (buildQuery q1) "size" =
        some (JVal.num (if q1.limit > 0 then (q1.limit : ℚ) else 1000)) := rfl
    have e2 : mapGet (buildQuery q2) "size" =
        some (JVal.num (if q2.limit > 0 then (q2.limit : ℚ) else 1000)) := rfl
    rw [e1, e2, h5]
  · intro hlen
    have hm := hmd hlen
    unfold buildQuery mustClauses
    rw [h1, h2, h3, h4, h5, hm]

/-- Witness for the amended C9 at the two iteration orders of a two-entry
metadata map. -/
theorem buildQuery_deterministic_witness :
    (mustClauses c9qA).Perm (mustClauses c9qB) :=
  (buildQuery_deterministic_up_to_metadata c9qA c9qB
    ⟨rfl, rfl, rfl, rfl, rfl, by decide⟩).1

/-- Claim C10: once a provider is memoized, every later request reuses it —
its config and even the construction oracle are ignored, and the memo never
changes; while no construction has succeeded the memo stays unset on
failure and each request re-attempts construction with its own config; and
the provider is consulted before method dispatch, so an unknown-method
request whose config fails construction gets the construction error, not
the unknown-method error. -/
theorem provider_memoization {P : Type} (O O2 : Oracles P) (p : P)
    (req : RpcRequest) (m : String) (pay : JVal)
    (cfg1 cfg2 : List (String × JVal)) (e : String) :
    (handleRequest O (some p) { method := m, config := cfg1, payload := pay } =
      handleRequest O (some p) { method := m, config := cfg2, payload := pay }) ∧
    ((handleRequest O (some p) req).2 = some p) ∧
    (O2.unmarshal = O.unmarshal → O2.runQuery = O.runQuery →
      handleRequest O2 (some p) req = handleRequest O (some p) req) ∧
    (O.construct req.config = .error e → handleRequest O none req = (.error e, none)) ∧
    (O.construct req.config = .ok p → (handleRequest O none req).2 = some p) := by
  refine ⟨rfl, ?_, ?_, ?_, ?_⟩
  · by_cases hm : req.method = "log.query"
    · cases hu : O.unmarshal req.payload with
      | error e2 => simp [handleRequest, ensureProvider, hm, hu]
      | ok qq =>
        cases hr : O.runQuery p qq with
        | error e2 => simp [handleRequest, ensureProvider, hm, hu, hr]
        | ok v => simp [handleRequest, ensureProvider, hm, hu, hr]
    · simp [handleRequest, ensureProvider, hm]
  · intro h1 h2
    simp only [handleRequest, ensureProvider, h1, h2]
  · intro h
    simp [handleRequest, ensureProvider, h]
  · intro h
    by_cases hm : req.method = "log.query"
    · cases hu : O.unmarshal req.payload with
      | error e2 => simp [handleRequest, ensureProvider, h, hm, hu]
      | ok qq =>
        cases hr : O.runQuery p qq with
        | error e2 => simp [handleRequest, ensureProvider, h, hm, hu, hr]
        | ok v => simp [handleRequest, ensureProvider, h, hm, hu, hr]
    · simp [handleRequest, ensureProvider, h, hm]

/-- Witness for C10: a failing construction surfaces its error on an
unknown-method request and leaves the memo unset; a succeeding one sets
the memo. -/
theorem provider_memoization_witness :
    handleRequest c10oracle none c10req = (.error "connect failed", none) ∧
    (handleRequest c10okOracle none c10req).2 = some () :=
  ⟨(provider_memoization c10oracle c10oracle () c10req "m" JVal.null [] []
      "connect failed").2.2.2.1 rfl,
   (provider_memoization c10okOracle c10okOracle () c10req "m" JVal.null [] []
      "x").2.2.2.2 rfl⟩

end ElasticAdapter
